import Mathlib

/-!
Shallow embedding of the CHIP-8 interpreter core in `src/chip8.rs`.

Machine bytes and words are modelled as `Nat` (values kept below `2^8` /
`2^16` by the operations themselves, mirroring Rust's `u8` / `u16` types).
The 4096-byte ram array `[u8; 4096]` is modelled as a function
`Nat → Nat` together with the array's fixed length `4096`, against which
every index is checked exactly where Rust's array indexing checks it.
Rust panics (out-of-bounds array indexing, the invalid-register `panic!`)
are modelled as `Except Fatal` errors; the run loop's silent `break` on an
unrecognised opcode family is modelled as a `halt` outcome carrying the
full instruction word that the source prints in its diagnostic.
-/

/-- Fatal failure categories of the source: Rust index-out-of-bounds panics
on `ram` accesses (`OutOfBounds`) and the `panic!` in `Registers::put` for a
register id outside 0x0–0xF (`InvalidRegister`). -/
inductive Fatal where
  | OutOfBounds
  | InvalidRegister
deriving DecidableEq

/-- The register file of `src/chip8.rs` lines 156–179: sixteen 8-bit
general registers `v_0` … `v_f` plus the 16-bit address register `i`. -/
structure Registers where
  v_0 : Nat
  v_1 : Nat
  v_2 : Nat
  v_3 : Nat
  v_4 : Nat
  v_5 : Nat
  v_6 : Nat
  v_7 : Nat
  v_8 : Nat
  v_9 : Nat
  v_a : Nat
  v_b : Nat
  v_c : Nat
  v_d : Nat
  v_e : Nat
  v_f : Nat
  i : Nat
deriving DecidableEq

/-- `Registers::new` (lines 182–202): all registers zero-initialised. -/
def Registers.new : Registers :=
  ⟨0, 0, 0, 0, 0, 0, 0, 0, 0, 0, 0, 0, 0, 0, 0, 0, 0⟩

/-- `Registers::put` (lines 204–227): a 16-way match on the register id;
the catch-all arm is a Rust `panic!`, modelled as `Fatal.InvalidRegister`. -/
def Registers.put (rs : Registers) (register : Nat) (value : Nat) :
    Except Fatal Registers :=
  match register with
  | 0x0 => .ok { rs with v_0 := value }
  | 0x1 => .ok { rs with v_1 := value }
  | 0x2 => .ok { rs with v_2 := value }
  | 0x3 => .ok { rs with v_3 := value }
  | 0x4 => .ok { rs with v_4 := value }
  | 0x5 => .ok { rs with v_5 := value }
  | 0x6 => .ok { rs with v_6 := value }
  | 0x7 => .ok { rs with v_7 := value }
  | 0x8 => .ok { rs with v_8 := value }
  | 0x9 => .ok { rs with v_9 := value }
  | 0xa => .ok { rs with v_a := value }
  | 0xb => .ok { rs with v_b := value }
  | 0xc => .ok { rs with v_c := value }
  | 0xd => .ok { rs with v_d := value }
  | 0xe => .ok { rs with v_e := value }
  | 0xf => .ok { rs with v_f := value }
  | _ => .error .InvalidRegister

/-- Modelled from the spec: the Register File contract's `get(id)` reader.
The source has no getter method — register reads are direct named-field
accesses — so the indexed read is modelled as the exact mirror of
`Registers::put`: the field selected by `id ∈ [0x0, 0xF]`, and
`InvalidRegister` for any other id. -/
def Registers.get (rs : Registers) (register : Nat) : Except Fatal Nat :=
  match register with
  | 0x0 => .ok rs.v_0
  | 0x1 => .ok rs.v_1
  | 0x2 => .ok rs.v_2
  | 0x3 => .ok rs.v_3
  | 0x4 => .ok rs.v_4
  | 0x5 => .ok rs.v_5
  | 0x6 => .ok rs.v_6
  | 0x7 => .ok rs.v_7
  | 0x8 => .ok rs.v_8
  | 0x9 => .ok rs.v_9
  | 0xa => .ok rs.v_a
  | 0xb => .ok rs.v_b
  | 0xc => .ok rs.v_c
  | 0xd => .ok rs.v_d
  | 0xe => .ok rs.v_e
  | 0xf => .ok rs.v_f
  | _ => .error .InvalidRegister

/-- The sixteen general registers in index order, for frame-condition
statements (which registers an instruction left untouched). -/
def regVals (rs : Registers) : List Nat :=
  [rs.v_0, rs.v_1, rs.v_2, rs.v_3, rs.v_4, rs.v_5, rs.v_6, rs.v_7,
   rs.v_8, rs.v_9, rs.v_a, rs.v_b, rs.v_c, rs.v_d, rs.v_e, rs.v_f]

/-- `NORMAL_START_INDEX` (line 9): the fixed 0x200 load/start offset. -/
def NORMAL_START_INDEX : Nat := 512

/-- The length of the ram array `[u8; 4096]` (line 16). -/
def RAM_SIZE : Nat := 4096

/-- `fn high` (lines 145–148): top nibble of a byte,
`(byte & ((1 << 4) - 1) << 4) >> 4`. -/
def high (byte : Nat) : Nat :=
  (byte &&& (((1 <<< 4) - 1) <<< 4)) >>> 4

/-- `fn low` (lines 150–153): bottom nibble of a byte,
`byte & ((1 << 4) - 1)`. -/
def low (byte : Nat) : Nat :=
  byte &&& ((1 <<< 4) - 1)

/-- Big-endian assembly of the 16-bit instruction word from the two fetched
bytes: the body of `Chip8::instruction` (line 121),
`(high_byte << 8) | low_byte`. -/
def word (high_byte low_byte : Nat) : Nat :=
  (high_byte <<< 8) ||| low_byte

/-- The 12-bit masking of `Chip8::addr` (lines 115–118):
`instruction & ((1 << 12) - 1)`. -/
def addr_of (w : Nat) : Nat :=
  w &&& ((1 <<< 12) - 1)

/-- A single cell update of the ram array, `ram[a] = b` after the index
check has passed. -/
def ramWrite (ram : Nat → Nat) (a b : Nat) : Nat → Nat :=
  fun x => if x = a then b else ram x

/-- The interpreter state of `src/chip8.rs` lines 12–38: 4096 bytes of ram,
the register file, program counter, stack pointer, 16-slot stack. -/
structure Chip8 where
  ram : Nat → Nat
  registers : Registers
  pc : Nat
  sp : Nat
  stack : List Nat

/-- `Chip8::new` (lines 41–49): zeroed ram, registers, pc, sp and stack. -/
def Chip8.new : Chip8 :=
  { ram := fun _ => 0
    registers := Registers.new
    pc := 0
    sp := 0
    stack := List.replicate 16 0 }

/-- `Chip8::high_byte` (lines 107–109): `ram[pc]`; a Rust array index,
which panics (`OutOfBounds`) unless `pc < 4096`. -/
def Chip8.high_byte (c : Chip8) : Except Fatal Nat :=
  if c.pc < RAM_SIZE then .ok (c.ram c.pc) else .error .OutOfBounds

/-- `Chip8::low_byte` (lines 111–113): `ram[pc + 1]`, panicking
(`OutOfBounds`) unless `pc + 1 < 4096`. -/
def Chip8.low_byte (c : Chip8) : Except Fatal Nat :=
  if c.pc + 1 < RAM_SIZE then .ok (c.ram (c.pc + 1)) else .error .OutOfBounds

/-- `Chip8::instruction` (lines 120–122): the big-endian word of the two
bytes at `pc`, via the same panicking reads. -/
def Chip8.instruction (c : Chip8) : Except Fatal Nat :=
  match c.high_byte with
  | .error e => .error e
  | .ok hb =>
    match c.low_byte with
    | .error e => .error e
    | .ok lb => .ok (word hb lb)

/-- `Chip8::addr` (lines 115–118): the low 12 bits of the instruction. -/
def Chip8.addr (c : Chip8) : Except Fatal Nat :=
  match c.instruction with
  | .error e => .error e
  | .ok w => .ok (addr_of w)

/-- `Chip8::load_i` (lines 87–92): set the address register to `nnn` and
return the next pc, `pc + 2`. -/
def Chip8.load_i (c : Chip8) : Except Fatal (Chip8 × Nat) :=
  match c.addr with
  | .error e => .error e
  | .ok a => .ok ({ c with registers := { c.registers with i := a } }, c.pc + 2)

/-- `Chip8::load_vx` (lines 95–101): put the low byte into register
`low(high_byte)` and return the next pc, `pc + 2`. -/
def Chip8.load_vx (c : Chip8) : Except Fatal (Chip8 × Nat) :=
  match c.high_byte with
  | .error e => .error e
  | .ok hb =>
    match c.low_byte with
    | .error e => .error e
    | .ok lb =>
      match c.registers.put (low hb) lb with
      | .error e => .error e
      | .ok rs => .ok ({ c with registers := rs }, c.pc + 2)

/-- Outcome of one iteration of the `run` loop body (lines 67–83): either
the loop continues with an updated state, or the `_` arm reported the
unrecognised instruction word and broke out of the loop. -/
inductive CycleResult where
  | next (c : Chip8)
  | halt (w : Nat) (c : Chip8)

/-- One iteration of the `run` loop body (lines 67–83): read the two bytes
at `pc` (each a panicking index), dispatch on the top nibble of the high
byte; families 0xA and 0x6 assign the handler's returned pc; any other
family reports the instruction word and breaks. -/
def Chip8.step (c : Chip8) : Except Fatal CycleResult :=
  match c.high_byte with
  | .error e => .error e
  | .ok hb =>
    match c.low_byte with
    | .error e => .error e
    | .ok lb =>
      match high hb with
      | 0xA =>
        match c.load_i with
        | .error e => .error e
        | .ok (c2, npc) => .ok (.next { c2 with pc := npc })
      | 0x6 =>
        match c.load_vx with
        | .error e => .error e
        | .ok (c2, npc) => .ok (.next { c2 with pc := npc })
      | _ => .ok (.halt (word hb lb) c)

/-- Outcome of running the loop for a bounded number of iterations: the
source loop (line 67) runs until its `break`; `outOfFuel` marks a run cut
off while still executing, `halted` the `break` on an unrecognised word. -/
inductive RunOut where
  | halted (w : Nat) (c : Chip8)
  | outOfFuel (c : Chip8)

/-- The `run` loop of lines 67–83, iterated at most `fuel` times. -/
def Chip8.loop : Nat → Chip8 → Except Fatal RunOut
  | 0, c => .ok (.outOfFuel c)
  | fuel + 1, c =>
    match c.step with
    | .error e => .error e
    | .ok (.halt w c2) => .ok (.halted w c2)
    | .ok (.next c2) => Chip8.loop fuel c2

/-- `Chip8::run` (lines 63–84): set `pc` to `NORMAL_START_INDEX` and run
the loop (here for at most `fuel` iterations). -/
def Chip8.run (fuel : Nat) (c : Chip8) : Except Fatal RunOut :=
  Chip8.loop fuel { c with pc := NORMAL_START_INDEX }

/-- The copy loop of `Chip8::load_rom` (lines 56–58): write each byte to
`ram[NORMAL_START_INDEX + index]`, a Rust array index that panics
(`OutOfBounds`) once the address reaches the ram length; writes performed
before the panic remain. -/
def load_rom_go : (Nat → Nat) → Nat → List Nat → (Nat → Nat) × Option Fatal
  | ram, _, [] => (ram, none)
  | ram, index, b :: rest =>
    if 512 + index < RAM_SIZE then
      load_rom_go (ramWrite ram (512 + index) b) (index + 1) rest
    else
      (ram, some .OutOfBounds)

/-- `Chip8::load_rom` (lines 51–61) on an already-read byte buffer (the
file read itself is the excluded I/O collaborator): copy the bytes into
ram starting at offset 512, returning the resulting state together with
the panic, if any, that cut the copy short. -/
def Chip8.load_rom (c : Chip8) (bytes : List Nat) : Chip8 × Option Fatal :=
  ({ c with ram := (load_rom_go c.ram 0 bytes).1 }, (load_rom_go c.ram 0 bytes).2)

/-! ### Helper lemmas -/

/-- The bottom nibble of any byte is a legal register id. -/
theorem low_lt_sixteen (b : Nat) : low b < 16 := by
  unfold low
  exact lt_of_le_of_lt Nat.and_le_right (by decide)

/-- The top nibble of any byte is a legal register id. -/
theorem high_lt_sixteen (b : Nat) : high b < 16 := by
  unfold high
  rw [Nat.shiftRight_eq_div_pow]
  have h1 : b &&& (((1 <<< 4) - 1) <<< 4) ≤ ((1 <<< 4) - 1) <<< 4 :=
    Nat.and_le_right
  have h2 : (b &&& (((1 <<< 4) - 1) <<< 4)) / 2 ^ 4 ≤ (((1 <<< 4) - 1) <<< 4) / 2 ^ 4 :=
    Nat.div_le_div_right h1
  omega

/-- `Registers::put` hits its panic arm exactly on ids ≥ 16. -/
theorem put_invalid (rs : Registers) (v k : Nat) :
    rs.put (k + 16) v = .error .InvalidRegister := rfl

/-- Modelled-from-spec `get` likewise rejects ids ≥ 16. -/
theorem get_invalid (rs : Registers) (k : Nat) :
    rs.get (k + 16) = .error .InvalidRegister := rfl

/-- `Registers::put` on a legal register id updates exactly that slot of
the register list and leaves the address register untouched. -/
theorem put_regVals (rs : Registers) (r v : Nat) (rs2 : Registers)
    (h : rs.put r v = .ok rs2) :
    regVals rs2 = (regVals rs).set r v ∧ rs2.i = rs.i := by
  by_cases hr : r < 16
  · interval_cases r <;> (cases Except.ok.inj h; exact ⟨rfl, rfl⟩)
  · exfalso
    obtain ⟨k, rfl⟩ : ∃ k, r = k + 16 := ⟨r - 16, by omega⟩
    rw [put_invalid] at h
    exact Except.noConfusion h

/-- `Registers::put` succeeds on every legal register id. -/
theorem put_ok_of_lt (rs : Registers) (r v : Nat) (h : r < 16) :
    ∃ rs2, rs.put r v = .ok rs2 := by
  interval_cases r <;> exact ⟨_, rfl⟩

/-- A fetch of the high byte can only fail with `OutOfBounds`. -/
theorem high_byte_ne_invalid (c : Chip8) :
    c.high_byte ≠ .error .InvalidRegister := by
  unfold Chip8.high_byte
  split <;> simp

/-- A fetch of the low byte can only fail with `OutOfBounds`. -/
theorem low_byte_ne_invalid (c : Chip8) :
    c.low_byte ≠ .error .InvalidRegister := by
  unfold Chip8.low_byte
  split <;> simp

/-- `Chip8::load_vx` can never reach the invalid-register panic: the id it
passes to `put` is a nibble. -/
theorem load_vx_ne_invalid (c : Chip8) :
    c.load_vx ≠ .error .InvalidRegister := by
  unfold Chip8.load_vx
  cases hhb : c.high_byte with
  | error e =>
    have h1 := high_byte_ne_invalid c
    rw [hhb] at h1
    simpa using h1
  | ok hb =>
    cases hlb : c.low_byte with
    | error e =>
      have h1 := low_byte_ne_invalid c
      rw [hlb] at h1
      simpa using h1
    | ok lb =>
      obtain ⟨rs2, hput⟩ := put_ok_of_lt c.registers (low hb) lb (low_lt_sixteen hb)
      simp [hput]

/-! ### Claims -/

/-- Claim C6: for every register id outside 0x0–0xF (i.e. every other
`u8` value), `put` and the spec-modelled `get` fail with
`InvalidRegister`, with no register modified (the state is returned
unchanged to the caller inside the error-carrying result). -/
theorem claim_C6 (rs : Registers) (r v : Nat) (h1 : 16 ≤ r) (h2 : r < 256) :
    rs.put r v = .error .InvalidRegister ∧
    rs.get r = .error .InvalidRegister := by
  obtain ⟨k, rfl⟩ : ∃ k, r = k + 16 := ⟨r - 16, by omega⟩
  exact ⟨put_invalid rs v k, get_invalid rs k⟩

/-- Witness for C6 at register id 16 and value 0. -/
theorem claim_C6_witness :
    Registers.put Registers.new 16 0 = .error .InvalidRegister ∧
    Registers.get Registers.new 16 = .error .InvalidRegister :=
  claim_C6 Registers.new 16 0 (by decide) (by decide)

/-- Claim C7: for every legal register id and every 8-bit value, a `put`
followed by the spec-modelled `get` of the same id returns exactly the
value written — no clamping, no truncation. -/
theorem claim_C7 (rs : Registers) (r v : Nat) (h1 : r < 16) (h2 : v < 256) :
    (rs.put r v).bind (fun rs2 => rs2.get r) = .ok v := by
  interval_cases r <;> rfl

/-- Witness for C7: writing 0x77 to register 0xB then reading it back. -/
theorem claim_C7_witness :
    (Registers.put Registers.new 0xB 0x77).bind
      (fun rs2 => rs2.get 0xB) = .ok 0x77 :=
  claim_C7 Registers.new 0xB 0x77 (by decide) (by decide)

/-- Claim C9: both nibble extractors return values below 16, so the
register id `load_vx` passes to `Registers::put` is always legal and the
invalid-register panic arm is unreachable from a family-0x6 instruction. -/
theorem claim_C9 :
    (∀ b, low b < 16) ∧ (∀ b, high b < 16) ∧
    (∀ c : Chip8, c.load_vx ≠ .error .InvalidRegister) :=
  ⟨low_lt_sixteen, high_lt_sixteen, load_vx_ne_invalid⟩

/-- Claim C1: loading `[0xFF, 0xFF]` at offset 512 into a fresh interpreter
succeeds, and one cycle of `run` halts gracefully (no fatal error),
reporting the full unrecognised word 0xFFFF, with the whole state — in
particular the pc — left exactly at the point of the failed dispatch
(pc = 512, not advanced). -/
theorem claim_C1 :
    (Chip8.new.load_rom [0xFF, 0xFF]).2 = none ∧
    Chip8.run 1 (Chip8.new.load_rom [0xFF, 0xFF]).1 =
      .ok (.halted 0xFFFF
        { (Chip8.new.load_rom [0xFF, 0xFF]).1 with pc := 512 }) :=
  ⟨rfl, rfl⟩

/-- Claim C3: loading `[0xA1, 0x23]` at offset 512 into a fresh interpreter
and running one cycle sets the address register to 0x123 and the pc to 514,
and changes nothing else — the full resulting state equals the loaded state
with only `i` and `pc` updated (so all sixteen general registers, sp,
stack and memory are untouched). -/
theorem claim_C3 :
    Chip8.run 1 (Chip8.new.load_rom [0xA1, 0x23]).1 =
      .ok (.outOfFuel
        { (Chip8.new.load_rom [0xA1, 0x23]).1 with
            registers := { Registers.new with i := 0x123 }, pc := 514 }) :=
  rfl

/-- Claim C4: loading `[0x6B, 0x77]` at offset 512 into a fresh interpreter
and running one cycle sets general register 0xB to 0x77 and the pc to 514,
and changes nothing else — the full resulting state equals the loaded state
with only `v_b` and `pc` updated (so the other registers, the address
register, sp, stack and memory are untouched). -/
theorem claim_C4 :
    Chip8.run 1 (Chip8.new.load_rom [0x6B, 0x77]).1 =
      .ok (.outOfFuel
        { (Chip8.new.load_rom [0x6B, 0x77]).1 with
            registers := { Registers.new with v_b := 0x77 }, pc := 514 }) :=
  rfl

/-- Claim C8: decoding is pure field extraction over the big-endian word
of the two fetched bytes: the word of bytes 0xA1, 0x23 is 0xA123 with
family 0xA and 12-bit address field 0x123; the word of bytes 0x6A, 0x45 is
0x6A45 with family 0x6, register field 0xA, and the immediate operand is
the low byte 0x45 (read verbatim, as the `instruction` assembly of a state
holding those two consecutive memory bytes shows). -/
theorem claim_C8 :
    word 0xA1 0x23 = 0xA123 ∧
    high 0xA1 = 0xA ∧
    addr_of (word 0xA1 0x23) = 0x123 ∧
    word 0x6A 0x45 = 0x6A45 ∧
    high 0x6A = 0x6 ∧
    low 0x6A = 0xA ∧
    ({ (Chip8.new.load_rom [0x6A, 0x45]).1 with pc := 512 } : Chip8).instruction
      = .ok 0x6A45 ∧
    ({ (Chip8.new.load_rom [0x6A, 0x45]).1 with pc := 512 } : Chip8).low_byte
      = .ok 0x45 :=
  ⟨rfl, rfl, rfl, rfl, rfl, rfl, rfl, rfl⟩

/-- Counterexample to claim C2 as stated: the interpreter performs no
evenness check on the pc. At the odd pc 513 (bytes in bounds, zeroed ram)
the cycle does not fail fatally: it reads memory, decodes the word 0x0000
and halts gracefully on the unrecognised family. -/
theorem claim_C2_counterexample :
    ({ Chip8.new with pc := 513 } : Chip8).step =
      .ok (.halt 0 { Chip8.new with pc := 513 }) :=
  rfl

/-- Claim C2 (amended): on every iteration of the run loop, the fetch's
bounds-checked indexing fails fatally with `OutOfBounds` whenever
`pc + 1 ≥ 4096`, before any decode or dispatch; the check recurs at every
state the loop reaches (the loop body applied to any such state fails).
No evenness/alignment check exists: an odd in-bounds pc fetches normally
(see the counterexample). -/
theorem claim_C2 (c : Chip8) (fuel : Nat) (h : RAM_SIZE ≤ c.pc + 1) :
    c.step = .error .OutOfBounds ∧
    c.loop (fuel + 1) = .error .OutOfBounds := by
  have hstep : c.step = .error .OutOfBounds := by
    unfold Chip8.step Chip8.high_byte Chip8.low_byte
    rcases Nat.lt_or_ge c.pc RAM_SIZE with h1 | h1
    · rw [if_pos h1, if_neg (by omega)]
    · rw [if_neg (by omega)]
  exact ⟨hstep, by rw [Chip8.loop, hstep]⟩

/-- Witness for C2 (amended) at pc = 4095 on a fresh interpreter. -/
theorem claim_C2_witness :
    ({ Chip8.new with pc := 4095 } : Chip8).step = .error .OutOfBounds ∧
    ({ Chip8.new with pc := 4095 } : Chip8).loop 1 = .error .OutOfBounds :=
  claim_C2 { Chip8.new with pc := 4095 } 0 (by decide)

/-- The copy loop panics once the image cannot fit above the offset. -/
theorem load_rom_go_fail :
    ∀ (bytes : List Nat) (ram : Nat → Nat) (index : Nat),
      0 < bytes.length → RAM_SIZE < 512 + index + bytes.length →
      (load_rom_go ram index bytes).2 = some .OutOfBounds := by
  intro bytes
  induction bytes with
  | nil => intro ram index h _; simp at h
  | cons b rest ih =>
    intro ram index _ hlen
    by_cases hlt : 512 + index < RAM_SIZE
    · have hrest : 0 < rest.length := by
        cases rest with
        | nil => simp at hlen; omega
        | cons x xs => simp
      have hrec :=
        ih (ramWrite ram (512 + index) b) (index + 1) hrest (by simp at hlen; omega)
      simpa [load_rom_go, hlt] using hrec
    · simp [load_rom_go, hlt]

/-- The copy loop only writes at or above the offset: cells below 512 are
untouched, panic or no panic. -/
theorem load_rom_go_below :
    ∀ (bytes : List Nat) (ram : Nat → Nat) (index a : Nat),
      a < 512 → (load_rom_go ram index bytes).1 a = ram a := by
  intro bytes
  induction bytes with
  | nil => intro ram index a _; rfl
  | cons b rest ih =>
    intro ram index a ha
    by_cases hlt : 512 + index < RAM_SIZE
    · have hrec := ih (ramWrite ram (512 + index) b) (index + 1) a ha
      rw [ramWrite, if_neg (by omega)] at hrec
      simpa [load_rom_go, hlt] using hrec
    · simp [load_rom_go, hlt]

/-- Claim C5: loading an image longer than `4096 - 512` bytes fails with
`OutOfBounds` (the copy loop's indexing panic), and every memory cell at
an address below the load offset still holds its prior contents. -/
theorem claim_C5 (c : Chip8) (bytes : List Nat) (a : Nat)
    (h1 : RAM_SIZE - NORMAL_START_INDEX < bytes.length) (h2 : a < 512) :
    (c.load_rom bytes).2 = some .OutOfBounds ∧
    (c.load_rom bytes).1.ram a = c.ram a := by
  have hlen : 0 < bytes.length := by
    simp [RAM_SIZE, NORMAL_START_INDEX] at h1; omega
  constructor
  · exact load_rom_go_fail bytes c.ram 0 hlen
      (by simp [RAM_SIZE, NORMAL_START_INDEX] at h1 ⊢; omega)
  · exact load_rom_go_below bytes c.ram 0 a h2

/-- Witness for C5: a 3585-byte image overflows; cell 0 is untouched. -/
theorem claim_C5_witness :
    (Chip8.new.load_rom (List.replicate 3585 7)).2 = some .OutOfBounds ∧
    (Chip8.new.load_rom (List.replicate 3585 7)).1.ram 0 = Chip8.new.ram 0 :=
  claim_C5 Chip8.new (List.replicate 3585 7) 0
    (by rw [List.length_replicate]; decide) (by decide)

/-- Claim C10: each implemented handler mutates only its target register
(and reports the advanced pc). Whenever `load_i` succeeds it leaves ram,
sp, the stack, the pc field and all sixteen general registers unchanged,
returning `pc + 2`; whenever `load_vx` succeeds on a state whose fetched
high byte is `hb`, it leaves ram, sp, the stack, the address register and
every general register other than `low hb` unchanged, returning `pc + 2`. -/
theorem claim_C10 :
    (∀ (c : Chip8) (out : Chip8 × Nat), c.load_i = .ok out →
      out.1.ram = c.ram ∧ out.1.sp = c.sp ∧ out.1.stack = c.stack ∧
      out.1.pc = c.pc ∧ regVals out.1.registers = regVals c.registers ∧
      out.2 = c.pc + 2) ∧
    (∀ (c : Chip8) (hb : Nat) (out : Chip8 × Nat) (j : Nat),
      c.high_byte = .ok hb → c.load_vx = .ok out → j ≠ low hb →
      out.1.ram = c.ram ∧ out.1.sp = c.sp ∧ out.1.stack = c.stack ∧
      out.1.registers.i = c.registers.i ∧
      (regVals out.1.registers)[j]? = (regVals c.registers)[j]? ∧
      out.2 = c.pc + 2) := by
  constructor
  · intro c out h
    unfold Chip8.load_i at h
    cases haddr : c.addr with
    | error e => rw [haddr] at h; exact Except.noConfusion h
    | ok a =>
      rw [haddr] at h
      cases Except.ok.inj h
      exact ⟨rfl, rfl, rfl, rfl, rfl, rfl⟩
  · intro c hb out j hhb hvx hj
    unfold Chip8.load_vx at hvx
    simp only [hhb] at hvx
    cases hlb : c.low_byte with
    | error e =>
      simp only [hlb] at hvx
      exact Except.noConfusion hvx
    | ok lb =>
      simp only [hlb] at hvx
      cases hput : c.registers.put (low hb) lb with
      | error e =>
        simp only [hput] at hvx
        exact Except.noConfusion hvx
      | ok rs2 =>
        simp only [hput] at hvx
        cases Except.ok.inj hvx
        obtain ⟨hsetv, hi⟩ := put_regVals c.registers (low hb) lb rs2 hput
        refine ⟨rfl, rfl, rfl, hi, ?_, rfl⟩
        show (regVals rs2)[j]? = (regVals c.registers)[j]?
        rw [hsetv]
        exact List.getElem?_set_ne (Ne.symm hj)

/-- Witness for C10: the family-0xA scenario state (bytes 0xA1 0x23 at
512) for `load_i`, and the family-0x6 scenario state (bytes 0x6B 0x77 at
512) for `load_vx`, with register 0 as the untouched observer. -/
theorem claim_C10_witness :
    (({ { (Chip8.new.load_rom [0xA1, 0x23]).1 with pc := 512 } with
          registers := { Registers.new with i := 0x123 } } : Chip8).ram =
        ({ (Chip8.new.load_rom [0xA1, 0x23]).1 with pc := 512 } : Chip8).ram ∧
      ({ { (Chip8.new.load_rom [0xA1, 0x23]).1 with pc := 512 } with
          registers := { Registers.new with i := 0x123 } } : Chip8).sp =
        ({ (Chip8.new.load_rom [0xA1, 0x23]).1 with pc := 512 } : Chip8).sp ∧
      ({ { (Chip8.new.load_rom [0xA1, 0x23]).1 with pc := 512 } with
          registers := { Registers.new with i := 0x123 } } : Chip8).stack =
        ({ (Chip8.new.load_rom [0xA1, 0x23]).1 with pc := 512 } : Chip8).stack ∧
      ({ { (Chip8.new.load_rom [0xA1, 0x23]).1 with pc := 512 } with
          registers := { Registers.new with i := 0x123 } } : Chip8).pc =
        ({ (Chip8.new.load_rom [0xA1, 0x23]).1 with pc := 512 } : Chip8).pc ∧
      regVals { Registers.new with i := 0x123 } =
        regVals ({ (Chip8.new.load_rom [0xA1, 0x23]).1 with pc := 512 } : Chip8).registers ∧
      (514 : Nat) =
        ({ (Chip8.new.load_rom [0xA1, 0x23]).1 with pc := 512 } : Chip8).pc + 2) ∧
    (({ { (Chip8.new.load_rom [0x6B, 0x77]).1 with pc := 512 } with
          registers := { Registers.new with v_b := 0x77 } } : Chip8).ram =
        ({ (Chip8.new.load_rom [0x6B, 0x77]).1 with pc := 512 } : Chip8).ram ∧
      ({ { (Chip8.new.load_rom [0x6B, 0x77]).1 with pc := 512 } with
          registers := { Registers.new with v_b := 0x77 } } : Chip8).sp =
        ({ (Chip8.new.load_rom [0x6B, 0x77]).1 with pc := 512 } : Chip8).sp ∧
      ({ { (Chip8.new.load_rom [0x6B, 0x77]).1 with pc := 512 } with
          registers := { Registers.new with v_b := 0x77 } } : Chip8).stack =
        ({ (Chip8.new.load_rom [0x6B, 0x77]).1 with pc := 512 } : Chip8).stack ∧
      ({ Registers.new with v_b := 0x77 } : Registers).i =
        ({ (Chip8.new.load_rom [0x6B, 0x77]).1 with pc := 512 } : Chip8).registers.i ∧
      (regVals { Registers.new with v_b := 0x77 })[0]? =
        (regVals ({ (Chip8.new.load_rom [0x6B, 0x77]).1 with pc := 512 } : Chip8).registers)[0]? ∧
      (514 : Nat) =
        ({ (Chip8.new.load_rom [0x6B, 0x77]).1 with pc := 512 } : Chip8).pc + 2) :=
  ⟨claim_C10.1 { (Chip8.new.load_rom [0xA1, 0x23]).1 with pc := 512 }
      ({ { (Chip8.new.load_rom [0xA1, 0x23]).1 with pc := 512 } with
          registers := { Registers.new with i := 0x123 } }, 514) (by rfl),
    claim_C10.2 { (Chip8.new.load_rom [0x6B, 0x77]).1 with pc := 512 } 0x6B
      ({ { (Chip8.new.load_rom [0x6B, 0x77]).1 with pc := 512 } with
          registers := { Registers.new with v_b := 0x77 } }, 514) 0
      (by rfl) (by rfl) (by decide)⟩
